import Mathlib

/-!
Verification of the browser-automation resume-download engine
(`download_resumes_browser.py`, orchestrated by `api_server.py`).

The Python source is shallowly embedded: each method of
`JazzHRBrowserDownloader` that the claims touch becomes an executable Lean
function over explicit state.  External effects (the browser DOM, the
filesystem, real time) are passed in as explicit inputs: a poll of a changing
quantity becomes a function from the poll index to the observed value, a
directory listing becomes a list of file records, and the cooperative
cancellation flag becomes a function from sample index to the flag's value at
that sample.  Python exceptions raised by an operation are modelled with
`Option`/`Except`; `try/except` blocks become matches on those results.
-/

/-! ## Character and string helpers

Python's `in` operator on strings is substring containment; CSS class
selectors match whitespace-separated tokens of the `class` attribute.  Both
are defined here over `List Char` so that everything computes.
-/

/-- ASCII lowercasing of one character, as `str.lower` acts on the ASCII
range (all markers the code searches for are ASCII). -/
def lowerChar (c : Char) : Char :=
  if 'A' ≤ c ∧ c ≤ 'Z' then Char.ofNat (c.toNat + 32) else c

/-- Lowercase a string (ASCII range). -/
def lowerStr (s : String) : String :=
  String.mk (s.toList.map lowerChar)

/-- `subList needle hay`: does `needle` occur as a contiguous sublist of
`hay`?  This is Python's `needle in hay` on strings. -/
def subList (needle hay : List Char) : Bool :=
  hay.tails.any fun t => needle.isPrefixOf t

/-- Python `needle in hay` for strings. -/
def strContains (hay needle : String) : Bool :=
  subList needle.toList hay.toList

/-- `s.startswith(pre)` / `href.startswith("http")`. -/
def strStarts (s pre : String) : Bool :=
  pre.toList.isPrefixOf s.toList

/-- `s.endswith(sfx)`, used for the `*.pdf` glob. -/
def strEnds (s sfx : String) : Bool :=
  sfx.toList.isSuffixOf s.toList

/-- Split a character list on spaces (the token list of a `class`
attribute value). -/
def splitTokens : List Char → List Char → List (List Char)
  | [], acc => [acc.reverse]
  | c :: rest, acc =>
    if c = ' ' then acc.reverse :: splitTokens rest []
    else splitTokens rest (c :: acc)

/-- CSS class-token match: `.tok` matches an element whose `class`
attribute, split on spaces, contains `tok`. -/
def hasClassTok (classAttr tok : String) : Bool :=
  (splitTokens classAttr.toList []).contains tok.toList

/-! ## The candidate-id regex

`re.search(r'/candidate/(\d+)', s)` scans `s` left to right and matches at
the first position where the literal `/candidate/` is followed by at least
one digit; the capture group is the maximal digit run at that position.
Lines 484, 519 and 845 of `download_resumes_browser.py` all use exactly this
pattern.
-/

/-- The literal part of the pattern. -/
def candLit : List Char := "/candidate/".toList

/-- Leftmost match of `/candidate/(\d+)` over a character list: at each
position, if the literal matches and a digit follows, return the maximal
digit run after the literal; otherwise advance one character. -/
def findCandidateId : List Char → Option (List Char)
  | [] => none
  | c :: rest =>
    if candLit.isPrefixOf (c :: rest) ∧
        (((c :: rest).drop candLit.length).takeWhile Char.isDigit) ≠ [] then
      some (((c :: rest).drop candLit.length).takeWhile Char.isDigit)
    else
      findCandidateId rest

/-- `re.search(r'/candidate/(\d+)', s)`, returning the captured group. -/
def extractCandidateId (s : String) : Option String :=
  (findCandidateId s.toList).map String.mk

/-! ## Login-state detection (`check_login_required`, lines 155–201)

The page is an explicit record: the current URL and, for each of the six
login-indicator XPaths probed, whether a matching element was found and
whether it was displayed.  `raises` models an unexpected exception thrown
anywhere inside the `try` body (e.g. a dead driver); the method's outer
`except` turns any such exception into `False` (line 198–201).
-/

/-- One login-indicator probe: element found, and displayed. -/
structure Indicator where
  found : Bool
  displayed : Bool
deriving DecidableEq

/-- The observable state of the current page, as `check_login_required`
reads it. -/
structure PageState where
  currentUrl : String
  indicators : List Indicator
  raises : Bool
deriving DecidableEq

/-- `check_login_required` (lines 155–201): (a) URL already on the job's
candidate route → `false`; (b) URL contains a login/signin marker →
`true`; (c) some indicator element found and displayed → `true`;
(d) otherwise `false`.  Any exception inside the body → `false`. -/
def check_login_required (jobId : String) (st : PageState) : Bool :=
  if st.raises then
    false
  else if strContains st.currentUrl ("/job/" ++ jobId ++ "/candidate") then
    false
  else if strContains (lowerStr st.currentUrl) "login" ∨
      strContains (lowerStr st.currentUrl) "signin" then
    true
  else
    st.indicators.any fun ind => ind.found && ind.displayed

/-! ## Scroll-to-load loop (`scroll_to_load_all_candidates`, lines 296–333)

`height n` is the document height observed after `n` scroll operations
(`height 0` is the initial read at line 300).  `cancelled i` is the value of
the cancellation flag at the top of loop iteration `i` (1-based).  The
result is the number of scroll operations performed, paired with whether the
final `window.scrollTo(0, 0)` (line 330) was reached — the cancellation
check at lines 307–308 returns from the method without it.
-/

/-- Loop body of `scroll_to_load_all_candidates`.  State: `lastH` is
`last_height`, `noChange` is `no_change_count`, `scrolls` counts scroll
operations performed so far, and the fuel is `50 - scroll_attempts`
(the `while scroll_attempts < max_scroll_attempts` bound). -/
def scrollAux (height : Nat → Nat) (cancelled : Nat → Bool)
    (lastH noChange scrolls : Nat) : Nat → Nat × Bool
  | 0 => (scrolls, true)
  | fuel + 1 =>
    if cancelled (scrolls + 1) then
      (scrolls, false)
    else
      let newH := height (scrolls + 1)
      if newH = lastH then
        if noChange + 1 ≥ 3 then
          (scrolls + 1, true)
        else
          scrollAux height cancelled newH (noChange + 1) (scrolls + 1) fuel
      else
        scrollAux height cancelled newH 0 (scrolls + 1) fuel

/-- `scroll_to_load_all_candidates`: initial `last_height` is `height 0`,
`no_change_count = 0`, `scroll_attempts = 0`, and at most 50 iterations. -/
def scroll_to_load_all_candidates (height : Nat → Nat)
    (cancelled : Nat → Bool) : Nat × Bool :=
  scrollAux height cancelled (height 0) 0 0 50

/-! ## Candidate enumeration (`get_candidate_links`, lines 399–541)

A discovered element is reduced to what the processing loop (lines 469–506)
reads from it: the value of its `href` attribute (`none` when the attribute
is absent) and the boolean outcome of the `is_candidate_not_hired` status
check on it.  The selector cascade that produced the elements is modelled
separately below (`candidateElements`), since the code adopts a single
selector's matches wholesale.
-/

/-- A candidate element as the processing loop of `get_candidate_links`
observes it. -/
structure CandElem where
  href : Option String
  notHired : Bool
deriving DecidableEq

/-- The deduplication dictionary `candidate_dict` (line 467):
an insertion-ordered map from candidate id to the raw `href` it was first
discovered under.  Python `dict` preserves insertion order, so an
association list is the faithful model. -/
abbrev CandDict := List (String × String)

/-- One step of the processing loop (lines 473–506): skip elements without
an `href` mentioning `candidate`/`applicant`, skip hrefs the id regex does
not match, skip ids already in the dictionary, skip elements classified
not-hired, and otherwise record `(id, href)`. -/
def procElem (d : CandDict) (e : CandElem) : CandDict :=
  match e.href with
  | none => d
  | some href =>
    if ¬ (strContains href "candidate" ∨ strContains href "applicant") then d
    else
      match extractCandidateId href with
      | none => d
      | some cid =>
        if (d.map Prod.fst).contains cid then d
        else if e.notHired then d
        else d ++ [(cid, href)]

/-- The whole processing loop over the discovered elements. -/
def processElems (d : CandDict) (es : List CandElem) : CandDict :=
  es.foldl procElem d

/-- The canonical profile URL constructed at line 523. -/
def profileUrl (jobId cid : String) : String :=
  "https://app.jazz.co/app/v2/job/" ++ jobId ++ "/candidate/" ++ cid ++ "/profile"

/-- URL normalization (lines 514–530): links that are `http(s)` URLs and
match the id regex are rewritten to the canonical `/profile` URL; a link
that cannot be parsed, or that is not an `http` string, is kept as-is. -/
def normalizeLink (jobId : String) (link : String) : String :=
  if strStarts link "http" then
    match extractCandidateId link with
    | some cid => profileUrl jobId cid
    | none => link
  else
    link

/-- Result of `get_candidate_links`: the normalized links returned to the
caller, and `self.all_candidate_ids` (line 532). -/
structure EnumResult where
  links : List String
  allIds : List String
deriving DecidableEq

/-- `get_candidate_links` from the discovered elements onwards: build the
dictionary, normalize its values (line 516–530), and record its keys as
`all_candidate_ids` (line 532). -/
def get_candidate_links (jobId : String) (es : List CandElem) : EnumResult :=
  let d := processElems [] es
  ⟨d.map fun p => normalizeLink jobId p.2, d.map Prod.fst⟩

/-! ## The selector cascade (lines 421–460)

`page sel` is the list of elements `driver.find_elements(CSS, sel)` returns
for selector `sel` (a selector whose lookup raises is indistinguishable from
one with no matches: the `except` at 441–443 continues the cascade).
`rowsFallback` is the element list the row-scanning fallback (lines
446–460) would produce; it is only consulted if every selector yields
nothing.
-/

/-- The eight selectors, in the cascade's fixed priority order
(lines 422–431). -/
def selectorsList : List String :=
  ["a[href*='/candidate/']",
   "a[href*='/applicant/']",
   ".candidate-link",
   ".applicant-link",
   "[data-candidate-id]",
   "tr[data-candidate-id] a",
   ".candidate-row a",
   ".applicant-row a"]

/-- First selector with a non-empty match wins (lines 434–443); results are
never merged across selectors. -/
def firstMatch (page : String → List CandElem) : List String → List CandElem
  | [] => []
  | s :: rest =>
    if (page s).isEmpty then firstMatch page rest else page s

/-- `candidate_elements` as assembled by lines 433–460: the cascade's
winner, or the row-scanning fallback when every selector came up empty. -/
def candidateElements (page : String → List CandElem)
    (rowsFallback : List CandElem) : List CandElem :=
  let cascade := firstMatch page selectorsList
  if cascade.isEmpty then rowsFallback else cascade

/-! ## Download verification (`verify_download`, lines 580–649)

The filesystem is observed through snapshots.  `initialNames` is the set of
file names present before the download is triggered (line 592; Python
compares `Path` objects, i.e. names).  `polls` is the sequence of directory
listings the 0.5s-poll loop reads during its 10s window (line 597–613),
each file carrying the size and mtime `stat` reports at that read.
`finalSnap` is the listing at lines 616–620, `chrome` the listing of the
platform-default download folder (`check_chrome_downloads_folder`,
lines 555–578) and `now` the clock it compares mtimes against.  The
`shutil.move` of the relocation (line 641) is modelled as succeeding.
-/

/-- A file as a directory listing reports it. -/
structure DFile where
  name : String
  size : Nat
  mtime : Nat
deriving DecidableEq

/-- The files of a snapshot that were not present initially
(`current_files - initial_files`, line 599). -/
def newFiles (initialNames : List String) (snap : List DFile) : List DFile :=
  snap.filter fun f => ¬ initialNames.contains f.name

/-- The poll loop (lines 597–613): succeed as soon as some snapshot shows a
new file of nonzero size; zero-byte new files are only logged and the loop
keeps polling. -/
def pollPhase (initialNames : List String) : List (List DFile) → Bool
  | [] => false
  | snap :: rest =>
    if (newFiles initialNames snap).any (fun f => f.size > 0) then true
    else pollPhase initialNames rest

/-- `sorted(files, key=mtime, reverse=True)[0]`: Python's sort is stable,
so this is the leftmost file of maximal mtime. -/
def newestFile : List DFile → Option DFile
  | [] => none
  | f :: rest =>
    match newestFile rest with
    | none => some f
    | some g => if g.mtime > f.mtime then some g else some f

/-- The file-count re-check (lines 616–627): if the count increased, the
newest file must have nonzero size. -/
def countCheck (initialCount : Nat) (finalSnap : List DFile) : Bool :=
  if finalSnap.length > initialCount then
    match newestFile finalSnap with
    | some f => f.size > 0
    | none => false
  else false

/-- `check_chrome_downloads_folder` (lines 555–578): PDFs of the default
download folder modified within the last 120 seconds.  `now - f.mtime` is
truncated ℕ-subtraction, matching the sign-insensitive `< 120` of
line 573. -/
def recentChromePdfs (now : Nat) (chrome : List DFile) : List DFile :=
  (chrome.filter fun f => strEnds f.name ".pdf").filter
    fun f => now - f.mtime < 120

/-- `verify_download` (lines 580–649): poll for a new nonzero-size file,
re-check by file count, then fall back to the default download folder —
where any recent PDF counts, with no size condition (lines 629–646). -/
def verify_download (initialNames : List String) (polls : List (List DFile))
    (finalSnap : List DFile) (chrome : List DFile) (now : Nat) : Bool :=
  if pollPhase initialNames polls then true
  else if countCheck initialNames.length finalSnap then true
  else ¬ (recentChromePdfs now chrome).isEmpty

/-! ## Not-hired status detection (`is_candidate_not_hired`, lines 335–397)

The DOM around a candidate element is a tree.  `stale` marks an element on
which every WebDriver operation (`get_attribute`, `find_element`,
`find_elements`, `.text`) raises (a stale/detached element); reads on such
an element are modelled as `none`, which the `try/except` structure of the
method turns into the documented fallbacks.  The candidate element is given
together with its chain of ancestors, nearest first; `find_element(By.XPATH,
"./..")` raises exactly when the chain is exhausted.

`find_elements` with a CSS selector searches the *strict descendants* of its
context element, in document order; the context element itself never
matches.  This is the detail behind the claim-C5 correction: a marker class
carried on the grandparent element itself is outside every searched region.
-/

/-- A DOM element: `class` attribute value, rendered text, staleness, and
child elements. -/
inductive Elem where
  | mk (classAttr : String) (text : String) (stale : Bool)
      (children : List Elem)

/-- The `class` attribute value. -/
def Elem.classAttr : Elem → String
  | .mk c _ _ _ => c

/-- The rendered text (`.text`). -/
def Elem.text : Elem → String
  | .mk _ t _ _ => t

/-- Whether operations on this element raise. -/
def Elem.stale : Elem → Bool
  | .mk _ _ s _ => s

/-- The child elements. -/
def Elem.children : Elem → List Elem
  | .mk _ _ _ cs => cs

mutual

/-- Strict descendants of an element, in document (pre-)order: what a CSS
`find_elements` on the element can return. -/
def descList : Elem → List Elem
  | .mk _ _ _ cs => descListOf cs

/-- Pre-order listing of a forest: each root followed by its descendants. -/
def descListOf : List Elem → List Elem
  | [] => []
  | c :: rest => c :: (descList c ++ descListOf rest)

end

/-- `element.get_attribute("class") or ""`: raises on a stale element. -/
def getClassAttr (e : Elem) : Option String :=
  if e.stale then none else some e.classAttr

/-- `find_elements(By.CSS_SELECTOR, sel)` restricted to a class predicate
on the descendants: raises on a stale context element. -/
def findDescs (e : Elem) (p : Elem → Bool) : Option (List Elem) :=
  if e.stale then none else some ((descList e).filter p)

/-- `.text` of an element: raises on a stale element. -/
def getText (e : Elem) : Option String :=
  if e.stale then none else some e.text

/-- Does a class attribute carry the not-hired marker as the *element's
own* attribute string, by the element-level test of line 350:
`"is-workflow-not-hired" in classes or "not-hired" in classes.lower()`
(both Python substring tests). -/
def attrMarker (classAttr : String) : Bool :=
  strContains classAttr "is-workflow-not-hired" ∨
    strContains (lowerStr classAttr) "not-hired"

/-- Descendant filter for the quick parent check (line 361) and the
per-level check (line 376): CSS `.is-workflow-not-hired` (the
`.jz-tag.is-workflow-not-hired` alternative of line 361 is subsumed). -/
def isMarkerElem (d : Elem) : Bool :=
  hasClassTok d.classAttr "is-workflow-not-hired"

/-- Descendant filter of line 381: CSS
`.jz-tag.is-workflow-not-hired, .jz-tag[class*='workflow']`, i.e. class
token `jz-tag` together with the substring `workflow` in the class
attribute (the first alternative implies the second). -/
def isWorkflowTag (d : Elem) : Bool :=
  hasClassTok d.classAttr "jz-tag" ∧ strContains d.classAttr "workflow"

/-- The quick check (lines 346–367): the element's own class attribute,
then the immediate parent's class attribute, then marker-class descendants
of the parent.  Any exception falls through to the level loop
(`except: pass`), reported here as `false`. -/
def quickCheck (e : Elem) (parents : List Elem) : Bool :=
  match getClassAttr e with
  | none => false
  | some attr =>
    if attrMarker attr then true
    else
      match parents with
      | [] => false
      | p :: _ =>
        match getClassAttr p with
        | none => false
        | some pattr =>
          if strContains pattr "is-workflow-not-hired" then true
          else
            match findDescs p isMarkerElem with
            | none => false
            | some tags => ¬ tags.isEmpty

/-- The tag-text scan of lines 382–385, in document order: `some true` on
the first workflow tag whose lowered text contains `"not hired"`,
`none` if a `.text` read raises first (which breaks the level loop). -/
def scanTags : List Elem → Option Bool
  | [] => some false
  | t :: rest =>
    match getText t with
    | none => none
    | some txt =>
      if strContains (lowerStr txt) "not hired" then some true
      else scanTags rest

/-- One level of the loop of lines 372–390 on context node `node`:
`some true` when a marker is found, `some false` when this level is clean,
`none` when an operation raised (the `except: break`). -/
def levelCheck (node : Elem) : Option Bool :=
  match findDescs node isMarkerElem with
  | none => none
  | some ne =>
    if ¬ ne.isEmpty then some true
    else
      match findDescs node isWorkflowTag with
      | none => none
      | some wt => scanTags wt

/-- The level loop (`for level in range(3)`, lines 372–390): check the
current node, then move to its parent; a raise, or running out of
ancestors, breaks the loop with result `false`. -/
def levelLoop : Elem → List Elem → Nat → Bool
  | _, _, 0 => false
  | node, ancestors, n + 1 =>
    match levelCheck node with
    | none => false
    | some true => true
    | some false =>
      match ancestors with
      | [] => false
      | p :: rest => levelLoop p rest n

/-- `is_candidate_not_hired` (lines 335–397): quick check, then the
three-level loop starting at the element itself.  The outer `except`
(line 395) never fires in the model because every inner operation's failure
is already absorbed by an inner handler. -/
def is_candidate_not_hired (e : Elem) (ancestors : List Elem) : Bool :=
  if quickCheck e ancestors then true
  else levelLoop e ancestors 3

/-! ## Session navigation (`wait_for_login`, `navigate_to_candidate_list`)

The four exceptions `navigate_to_candidate_list` can raise (lines 267, 274,
283, 292), with their exact message strings — `run_download` in
`api_server.py` dispatches on the message text (line 257).
-/

/-- Session-level navigation failures, with `errMsg` the `str(e)` of the
exception the source raises. -/
inductive NavError where
  | credentialsRequired
  | loginFailed
  | authFailed
  | verifyFailed
deriving DecidableEq

/-- The message of each raised exception. -/
def errMsg : NavError → String
  | .credentialsRequired => "Login required but no cookies provided for headless mode"
  | .loginFailed => "Login failed or timed out"
  | .authFailed => "Authentication failed: Invalid or expired cookies"
  | .verifyFailed => "Login verification failed"

/-- Poll body of `wait_for_login` (lines 217–235): flag check first, then
one 3-second sleep, then a login re-check; `i` numbers the polls, and the
fuel is the remaining `(600 - wait_time) / 3` iterations. -/
def waitForLoginAux (jobId : String) (pages : Nat → PageState)
    (cancelled : Nat → Bool) : Nat → Nat → Bool
  | _, 0 => false
  | i, fuel + 1 =>
    if cancelled i then false
    else if ¬ check_login_required jobId (pages i) then true
    else waitForLoginAux jobId pages cancelled (i + 1) fuel

/-- `wait_for_login` (lines 203–239): up to 600s in 3s polls, i.e. 200
iterations; `false` on timeout or on an observed cancellation. -/
def wait_for_login (jobId : String) (pages : Nat → PageState)
    (cancelled : Nat → Bool) : Bool :=
  waitForLoginAux jobId pages cancelled 1 200

/-- Everything `navigate_to_candidate_list` observes: execution mode,
whether cookies were supplied, and the page state at each of its
login-state checks (line 251; line 281 after the cookie reload; line 290
after the final navigation), plus the oracles of an interactive login
wait. -/
structure NavEnv where
  headless : Bool
  hasCookies : Bool
  page0 : PageState
  pageAfterReload : PageState
  pageFinal : PageState
  waitPages : Nat → PageState
  waitCancelled : Nat → Bool

/-- `navigate_to_candidate_list` (lines 241–294).  If login is required:
headless without cookies fails fast (line 267); non-headless waits for an
interactive login (line 271) and then re-verifies (line 290); headless with
cookies reloads and re-checks (lines 277–283) before the same final
verification. -/
def navigate_to_candidate_list (jobId : String) (env : NavEnv) :
    Except NavError Unit :=
  if check_login_required jobId env.page0 then
    if env.headless ∧ ¬ env.hasCookies then
      .error .credentialsRequired
    else if ¬ env.headless then
      if wait_for_login jobId env.waitPages env.waitCancelled then
        if check_login_required jobId env.pageFinal then .error .verifyFailed
        else .ok ()
      else .error .loginFailed
    else
      if check_login_required jobId env.pageAfterReload then .error .authFailed
      else if check_login_required jobId env.pageFinal then .error .verifyFailed
      else .ok ()
  else
    .ok ()

/-! ## The per-candidate loop and the run orchestrator
(`download_resume_from_profile` lines 651–883,
`download_all_resumes` lines 885–1004)

A fetch attempt's interaction with the browser is abstracted to its boolean
outcome `success i` for the `i`-th candidate: `true` exactly when the click
landed and `verify_download` returned `True` (line 850).  What the claims
track is the counter discipline around that outcome (lines 842–859 and
868–883): on success, `downloaded_count` is incremented and the id parsed
from the candidate URL (line 845, the same regex as enumeration) joins
`downloaded_candidate_ids`; on any failure or exception, `failed_count` is
incremented and no id is recorded.  The URL rewrite of lines 664–667 is the
identity on the `/profile`-ending URLs enumeration produces, and a
non-`http` entry can never reach the success path (its `.click()` on a
plain string raises), so letting the oracle mark it successful only adds
behaviours; the invariants below hold for all of them.  The re-navigation
between candidates (lines 934–937, 945–949) is modelled as succeeding.
-/

/-- The orchestrator counters: `downloaded_count`, `failed_count` and the
set `downloaded_candidate_ids` (Python `set`s of id strings). -/
structure DState where
  downloadedCount : Nat
  failedCount : Nat
  downloadedIds : Finset String
deriving DecidableEq

/-- Counters at run start (lines 54–57). -/
def initDState : DState := ⟨0, 0, ∅⟩

/-- Effect of one fetch attempt on the counters (lines 842–859 on success,
857–859 / 868–883 on failure). -/
def fetchStep (st : DState) (url : String) (ok : Bool) : DState :=
  if ok then
    { st with
      downloadedCount := st.downloadedCount + 1
      downloadedIds :=
        match extractCandidateId url with
        | some cid => insert cid st.downloadedIds
        | none => st.downloadedIds }
  else
    { st with failedCount := st.failedCount + 1 }

/-- The per-candidate loop (lines 917–949): at the top of iteration `i`
(1-based) the cancellation flag is read; if set, the loop returns at once.
Returns the final counters and the number of candidates processed. -/
def candidateLoop (success cancelled : Nat → Bool) :
    List String → Nat → DState → DState × Nat
  | [], i, st => (st, i - 1)
  | url :: rest, i, st =>
    if cancelled i then (st, i - 1)
    else candidateLoop success cancelled rest (i + 1) (fetchStep st url (success i))

/-- Counters after the first `k` fetch steps, with no early exit: the state
the run is in after every per-candidate fetch step is
`foldSteps success (links.take k) 1 initDState` for the appropriate `k`. -/
def foldSteps (success : Nat → Bool) : List String → Nat → DState → DState
  | [], _, st => st
  | url :: rest, i, st => foldSteps success rest (i + 1) (fetchStep st url (success i))

/-- What a whole run produces, as observed by `api_server.run_download`:
the escaped exception if any, `all_candidate_ids`, the counters, how many
candidates the loop processed, how many times enumeration ran, the value of
the cancellation flag when the wrapper reads it after the run (sample
`processed + 1`, the first sample the loop itself did not consume), and
whether the `finally` of lines 1001–1004 released the browser (it always
runs). -/
structure OrchResult where
  navError : Option NavError
  allIds : Finset String
  st : DState
  processed : Nat
  enumAttempts : Nat
  flagFinal : Bool
  sessionReleased : Bool
deriving DecidableEq

/-- `download_all_resumes` (lines 885–1004): navigate; enumerate; if the
first enumeration yields nothing, pause 10s and enumerate once more
(lines 898–904); if still nothing, log and return *normally* (lines
906–912); otherwise run the per-candidate loop.  The browser is released
on every path by the `finally`. -/
def download_all_resumes (jobId : String) (env : NavEnv)
    (elems1 elems2 : List CandElem) (success cancelled : Nat → Bool) :
    OrchResult :=
  match navigate_to_candidate_list jobId env with
  | .error e =>
    ⟨some e, ∅, initDState, 0, 0, cancelled 1, true⟩
  | .ok () =>
    let r1 := get_candidate_links jobId elems1
    if r1.links.isEmpty then
      let r2 := get_candidate_links jobId elems2
      if r2.links.isEmpty then
        ⟨none, r2.allIds.toFinset, initDState, 0, 2, cancelled 1, true⟩
      else
        let p := candidateLoop success cancelled r2.links 1 initDState
        ⟨none, r2.allIds.toFinset, p.1, p.2, 2, cancelled (p.2 + 1), true⟩
    else
      let p := candidateLoop success cancelled r1.links 1 initDState
      ⟨none, r1.allIds.toFinset, p.1, p.2, 1, cancelled (p.2 + 1), true⟩

/-! ## The hosting wrapper (`api_server.run_download`, lines 148–294)

`download_with_progress` (lines 178–267) decides the terminal status: a
normal return with the flag set is `cancelled` (lines 228–233); a normal
return otherwise is `completed` with the final stats (lines 235–248); an
exception with the flag set is `cancelled`, otherwise `login_required` if
the message contains `"LOGIN_REQUIRED"` and `failed` if not (lines
250–263).
-/

/-- Terminal status of a run. -/
inductive RunStatus where
  | completed
  | failed
  | cancelledRun
  | loginRequired
deriving DecidableEq

/-- The stats block of lines 239–244. -/
structure RunStats where
  saved : Nat
  failedCount : Nat
  totalFound : Nat
  totalDownloaded : Nat
deriving DecidableEq

/-- A run as the caller sees it. -/
structure RunReport where
  status : RunStatus
  stats : Option RunStats
  errorText : Option String
  run : OrchResult
deriving DecidableEq

/-- `run_download`'s status/stat bookkeeping around one
`download_all_resumes` call. -/
def run_download (jobId : String) (env : NavEnv)
    (elems1 elems2 : List CandElem) (success cancelled : Nat → Bool) :
    RunReport :=
  let r := download_all_resumes jobId env elems1 elems2 success cancelled
  match r.navError with
  | some e =>
    if r.flagFinal then ⟨.cancelledRun, none, none, r⟩
    else if strContains (errMsg e) "LOGIN_REQUIRED" then
      ⟨.loginRequired, none, some (errMsg e), r⟩
    else ⟨.failed, none, some (errMsg e), r⟩
  | none =>
    if r.flagFinal then ⟨.cancelledRun, none, none, r⟩
    else
      ⟨.completed,
        some ⟨r.st.downloadedCount, r.st.failedCount,
          r.allIds.card, r.st.downloadedIds.card⟩,
        none, r⟩

/-! ## Spec-side predicates

Definitions used to *state* claims: where the marker actually sits in the
DOM for claim C5, and the match-at-position predicate of the id regex used
by the claim-C1 lemmas.
-/

/-- The id regex matches at the head of `l`: the literal `/candidate/`
followed by at least one digit. -/
def goodAt (l : List Char) : Bool :=
  candLit.isPrefixOf l ∧
    ((l.drop candLit.length).takeWhile Char.isDigit) ≠ []

/-- The fixed text preceding the job id in every canonical profile URL
(line 523). -/
def fixedPre : List Char := "https://app.jazz.co/app/v2/job/".toList

/-- A not-hired marker somewhere among the strict descendants of `x`, in
either of the forms the code searches for: the marker class, or a workflow
tag whose text contains `"not hired"`. -/
def subtreeMarker (x : Elem) : Bool :=
  (descList x).any fun d =>
    isMarkerElem d ∨ (isWorkflowTag d ∧ strContains (lowerStr d.text) "not hired")

/-- The element and every strict descendant respond to WebDriver calls. -/
def deepLive (x : Elem) : Bool :=
  ¬ x.stale ∧ (descList x).all fun d => ¬ d.stale

/-- Where `is_candidate_not_hired` can actually see a marker: the
element's own class attribute, the parent's own class attribute, or the
descendant subtrees of the element, its parent and its grandparent.  The
grandparent's *own* class attribute is absent from this list — no check
ever reads it. -/
def markerDetected (e : Elem) : List Elem → Bool
  | [] => attrMarker e.classAttr || subtreeMarker e
  | p :: rest =>
    attrMarker e.classAttr || subtreeMarker e ||
      strContains p.classAttr "is-workflow-not-hired" || subtreeMarker p ||
      (match rest with
       | [] => false
       | g :: _ => subtreeMarker g)

/-! # Theorems -/

/-! ## Scroll loop bounds (claim C4) -/

/-- The loop performs at most `fuel` further scrolls. -/
theorem scrollAux_scrolls_le (height : Nat → Nat) (cancelled : Nat → Bool) :
    ∀ fuel lastH noChange scrolls,
      (scrollAux height cancelled lastH noChange scrolls fuel).1 ≤ scrolls + fuel := by
  intro fuel
  induction fuel with
  | zero => intro lastH n s; simp [scrollAux]
  | succ f ih =>
    intro lastH n s
    simp only [scrollAux]
    split
    · simp
    · split
      · split
        · simp
        · exact le_trans (ih _ _ _) (by omega)
      · exact le_trans (ih _ _ _) (by omega)

/-- If the flag never fires, the loop always reaches the final
scroll-to-top. -/
theorem scrollAux_restores (height : Nat → Nat) (cancelled : Nat → Bool)
    (hnc : ∀ i, cancelled i = false) :
    ∀ fuel lastH noChange scrolls,
      (scrollAux height cancelled lastH noChange scrolls fuel).2 = true := by
  intro fuel
  induction fuel with
  | zero => intro lastH n s; simp [scrollAux]
  | succ f ih =>
    intro lastH n s
    simp only [scrollAux]
    rw [if_neg (by simp [hnc])]
    by_cases heq : height (s + 1) = lastH
    · rw [if_pos heq]
      by_cases h3 : n + 1 ≥ 3
      · rw [if_pos h3]
      · rw [if_neg h3]; exact ih _ _ _
    · rw [if_neg heq]; exact ih _ _ _

/-- Once the height has stabilised (`s ≥ k`), at most `3 - noChange`
further scrolls happen: each iteration sees an unchanged height. -/
theorem scrollAux_stable (height : Nat → Nat) (cancelled : Nat → Bool)
    (hnc : ∀ i, cancelled i = false) (k : Nat)
    (hst : ∀ i, k ≤ i → height i = height k) :
    ∀ fuel s n, k ≤ s → n ≤ 2 →
      (scrollAux height cancelled (height s) n s fuel).1 ≤ s + (3 - n) := by
  intro fuel
  induction fuel with
  | zero => intro s n hs hn; simp [scrollAux]
  | succ f ih =>
    intro s n hs hn
    have heq : height (s + 1) = height s := by
      rw [hst (s + 1) (by omega), hst s hs]
    simp only [scrollAux, hnc]
    rw [if_neg (by simp)]
    rw [if_pos heq]
    by_cases h3 : n + 1 ≥ 3
    · rw [if_pos h3]; simp; omega
    · rw [if_neg h3]
      calc (scrollAux height cancelled (height (s + 1)) (n + 1) (s + 1) f).1
          ≤ (s + 1) + (3 - (n + 1)) := ih (s + 1) (n + 1) (by omega) (by omega)
        _ ≤ s + (3 - n) := by omega

/-- From any point before stabilisation, the loop performs at most `k + 3`
scrolls in total. -/
theorem scrollAux_reaches (height : Nat → Nat) (cancelled : Nat → Bool)
    (hnc : ∀ i, cancelled i = false) (k : Nat)
    (hst : ∀ i, k ≤ i → height i = height k) :
    ∀ fuel s n, s ≤ k → n ≤ 2 →
      (scrollAux height cancelled (height s) n s fuel).1 ≤ k + 3 := by
  intro fuel
  induction fuel with
  | zero => intro s n hs hn; simp [scrollAux]; omega
  | succ f ih =>
    intro s n hs hn
    rcases eq_or_lt_of_le hs with hek | hlt
    · subst hek
      exact le_trans (scrollAux_stable height cancelled hnc s
        (by intro i hi; rw [hst i ?_, hst s ?_] <;> omega) (f + 1) s n le_rfl hn)
        (by omega)
    · simp only [scrollAux, hnc]
      rw [if_neg (by simp)]
      by_cases heq : height (s + 1) = height s
      · rw [if_pos heq]
        by_cases h3 : n + 1 ≥ 3
        · rw [if_pos h3]; simp; omega
        · rw [if_neg h3]; exact ih (s + 1) (n + 1) (by omega) (by omega)
      · rw [if_neg heq]; exact ih (s + 1) 0 (by omega) (by omega)

/-- Claim C4, counterexample to the claim as stated: the scroll position is
*not* always restored to top before extraction begins — if the cancellation
flag is observed inside the scroll loop (lines 307–308), the method returns
without the `window.scrollTo(0, 0)` of line 330, and `get_candidate_links`
proceeds to extraction regardless (line 419). -/
theorem claim4_counterexample :
    (scroll_to_load_all_candidates (fun _ => 100) (fun _ => true)).2 = false := by
  rfl

/-- Claim C4 (amended): the scroll-to-load loop terminates for every page,
stopping once the height is unchanged for 3 consecutive iterations or after
at most 50 iterations; for a page whose height stops changing after
`k ≤ 50` scrolls it terminates within `k + 3` iterations; and when the
loop is not cancelled mid-scroll the scroll position is restored to top
before extraction (a cancellation observed inside the loop returns without
restoring it). -/
theorem claim4_scroll_termination (height : Nat → Nat) (cancelled : Nat → Bool)
    (k : Nat) (hnc : ∀ i, cancelled i = false)
    (hst : ∀ i, k ≤ i → height i = height k) (hk : k ≤ 50) :
    (scroll_to_load_all_candidates height cancelled).1 ≤ k + 3 ∧
      (scroll_to_load_all_candidates height cancelled).1 ≤ 50 ∧
      (scroll_to_load_all_candidates height cancelled).2 = true := by
  refine ⟨?_, ?_, ?_⟩
  · exact scrollAux_reaches height cancelled hnc k hst 50 0 0 (by omega) (by omega)
  · exact le_trans (scrollAux_scrolls_le height cancelled 50 (height 0) 0 0) (by omega)
  · exact scrollAux_restores height cancelled hnc 50 (height 0) 0 0

/-- Witness for `claim4_scroll_termination`: a page whose height grows for
7 scrolls and then stays fixed terminates within 10 scrolls, never exceeds
50, and restores the scroll position. -/
theorem claim4_witness :
    (∀ i, (fun _ : Nat => false) i = false) ∧
      (∀ i, 7 ≤ i → min i 7 = min 7 7) ∧ 7 ≤ 50 ∧
      (scroll_to_load_all_candidates (fun n => min n 7) (fun _ => false)).1 ≤ 7 + 3 ∧
      (scroll_to_load_all_candidates (fun n => min n 7) (fun _ => false)).1 ≤ 50 ∧
      (scroll_to_load_all_candidates (fun n => min n 7) (fun _ => false)).2 = true := by
  refine ⟨fun _ => rfl, fun i hi => by omega, by omega, ?_⟩
  have h := claim4_scroll_termination (fun n => min n 7) (fun _ => false) 7
    (fun _ => rfl) (fun i hi => by simp; omega) (by omega)
  exact ⟨h.1, h.2.1, h.2.2⟩

/-! ## Login-check error default (claim C10) -/

/-- Claim C10: if any unexpected exception is raised while classifying the
current page's login state, `check_login_required` returns `False` — the
session is treated as authenticated and the run proceeds. -/
theorem claim10_login_check_error_default (jobId : String) (st : PageState)
    (h : st.raises = true) : check_login_required jobId st = false := by
  simp [check_login_required, h]

/-- Witness for `claim10_login_check_error_default`: a raising check on a
login page still reports "no login required". -/
theorem claim10_witness :
    (PageState.mk "https://app.jazz.co/login" [] true).raises = true ∧
      check_login_required "10545457" ⟨"https://app.jazz.co/login", [], true⟩ = false :=
  ⟨rfl, claim10_login_check_error_default "10545457" _ rfl⟩

/-! ## Selector cascade (claim C6) -/

/-- Claim C6: the ordered selector list is tried in fixed priority order and
the first selector yielding any match supplies all candidate elements; for
a page on which selectors 1 and 2 are empty and selector 3 matches, the
result is exactly selector 3's matches — selectors 4–8 and the row fallback
are arbitrary here and contribute nothing. -/
theorem claim6_selector_cascade (page : String → List CandElem)
    (rowsFallback : List CandElem)
    (h1 : page "a[href*='/candidate/']" = [])
    (h2 : page "a[href*='/applicant/']" = [])
    (h3 : page ".candidate-link" ≠ []) :
    candidateElements page rowsFallback = page ".candidate-link" := by
  simp [candidateElements, firstMatch, selectorsList, h1, h2,
    List.isEmpty_iff, h3]

/-- Witness for `claim6_selector_cascade`: a page where only
`.candidate-link` matches. -/
theorem claim6_witness :
    ((fun s => if s = ".candidate-link"
        then [CandElem.mk (some "/candidate/5") false] else [])
          "a[href*='/candidate/']" = []) ∧
      ((fun s => if s = ".candidate-link"
        then [CandElem.mk (some "/candidate/5") false] else [])
          "a[href*='/applicant/']" = []) ∧
      ((fun s => if s = ".candidate-link"
        then [CandElem.mk (some "/candidate/5") false] else [])
          ".candidate-link" ≠ []) ∧
      candidateElements
        (fun s => if s = ".candidate-link"
          then [CandElem.mk (some "/candidate/5") false] else []) [] =
        [CandElem.mk (some "/candidate/5") false] := by
  refine ⟨by decide, by decide, by decide, ?_⟩
  exact claim6_selector_cascade _ [] (by decide) (by decide) (by decide)

/-! ## Download verification (claim C2) -/

/-- The poll loop reports no success when every new file it ever saw was
empty. -/
theorem pollPhase_eq_false (initialNames : List String)
    (polls : List (List DFile))
    (h : ∀ snap ∈ polls, ∀ f ∈ newFiles initialNames snap, f.size = 0) :
    pollPhase initialNames polls = false := by
  induction polls with
  | nil => rfl
  | cons snap rest ih =>
    simp only [pollPhase]
    rw [if_neg]
    · exact ih fun s hs => h s (by simp [hs])
    · intro hx
      rw [List.any_eq_true] at hx
      obtain ⟨f, hf, hsz⟩ := hx
      have := h snap (by simp) f hf
      simp [this] at hsz

/-- The poll loop reports success as soon as some snapshot contains a new
file of nonzero size. -/
theorem pollPhase_eq_true (initialNames : List String)
    (polls : List (List DFile))
    (h : ∃ snap ∈ polls, ∃ f ∈ newFiles initialNames snap, 0 < f.size) :
    pollPhase initialNames polls = true := by
  induction polls with
  | nil => simp at h
  | cons snap rest ih =>
    simp only [pollPhase]
    obtain ⟨s, hs, f, hf, hsz⟩ := h
    rcases List.mem_cons.mp hs with rfl | hs'
    · rw [if_pos]
      rw [List.any_eq_true]
      exact ⟨f, hf, by simpa using hsz⟩
    · split
      · rfl
      · exact ih ⟨s, hs', f, hf, hsz⟩

/-- Claim C2, counterexample to the claim as stated: all three checks find
no new *nonzero-size* file — the managed directory never changes and the
platform-default download folder holds only a zero-byte PDF — yet the
outcome is success, not `VerificationFailed`: the last-resort check accepts
any recent PDF with no size condition (lines 629–646). -/
theorem claim2_counterexample :
    (([(⟨"a.pdf", 0, 100⟩ : DFile)]).all fun f => f.size = 0) = true ∧
      verify_download [] [] [] [⟨"a.pdf", 0, 100⟩] 150 = true := by
  exact ⟨rfl, by decide⟩

/-- The count re-check fails whenever the most recently modified file of
the final listing is empty. -/
theorem countCheck_eq_false (c : Nat) (finalSnap : List DFile)
    (h : ∀ f, newestFile finalSnap = some f → f.size = 0) :
    countCheck c finalSnap = false := by
  simp only [countCheck]
  split
  · rcases hsp : newestFile finalSnap with _ | f
    · simp [hsp]
    · simp [hsp, h f hsp]
  · rfl

/-- Claim C2 (amended): verification snapshots the directory before the
trigger, polls for a new nonzero-size file, re-checks by file count
(success there requires the most-recently-modified file to be nonzero),
and as a last resort accepts *any* PDF modified within the last 120s in the
platform-default download folder, regardless of size.  If every new file
seen while polling is empty, the newest file of the final listing is empty
(or the count did not grow), and no recent PDF sits in the default folder,
the outcome is `VerificationFailed` — in particular a download that
produces only a zero-byte file in the managed directory.  A new file of
nonzero size appearing in some poll is reported as success. -/
theorem claim2_amended_verification (initialNames : List String)
    (polls : List (List DFile)) (finalSnap : List DFile)
    (chrome : List DFile) (now : Nat) :
    ((∀ snap ∈ polls, ∀ f ∈ newFiles initialNames snap, f.size = 0) →
      (∀ f, newestFile finalSnap = some f → f.size = 0) →
      recentChromePdfs now chrome = [] →
      verify_download initialNames polls finalSnap chrome now = false) ∧
    ((∃ snap ∈ polls, ∃ f ∈ newFiles initialNames snap, 0 < f.size) →
      verify_download initialNames polls finalSnap chrome now = true) := by
  constructor
  · intro hpoll hnewest hchrome
    simp only [verify_download]
    rw [if_neg (by simp [pollPhase_eq_false initialNames polls hpoll])]
    rw [if_neg
      (by simp [countCheck_eq_false initialNames.length finalSnap hnewest])]
    simp [hchrome]
  · intro h
    simp [verify_download, pollPhase_eq_true initialNames polls h]

/-- Witness for `claim2_amended_verification`: a run whose only new file is
a zero-byte file in the managed directory, with an empty default download
folder, reports `VerificationFailed`. -/
theorem claim2_witness :
    (recentChromePdfs 150 [] = []) ∧
      verify_download [] [[⟨"r.pdf", 0, 5⟩]] [⟨"r.pdf", 0, 5⟩] [] 150 = false := by
  refine ⟨rfl, (claim2_amended_verification [] [[⟨"r.pdf", 0, 5⟩]]
    [⟨"r.pdf", 0, 5⟩] [] 150).1 ?_ ?_ rfl⟩
  · decide
  · decide

/-! ## Not-hired detection (claim C5) -/

/-- `List.any` only depends on pointwise values. -/
theorem listAny_congr {α : Type} (l : List α) (p q : α → Bool)
    (h : ∀ x ∈ l, p x = q x) : l.any p = l.any q := by
  induction l with
  | nil => rfl
  | cons a rest ih =>
    simp only [List.any_cons, h a (by simp)]
    rw [ih fun x hx => h x (by simp [hx])]

/-- A filtered list is non-empty exactly when some element satisfies the
filter. -/
theorem filterNonempty_any {α : Type} (l : List α) (p : α → Bool) :
    (!(l.filter p).isEmpty) = l.any p := by
  induction l with
  | nil => rfl
  | cons a t ih =>
    rcases hp : p a
    · simp only [List.filter_cons, hp, Bool.false_eq_true, if_false,
        List.any_cons]
      simp [ih]
    · simp [List.filter_cons, hp]

/-- A marker-class descendant makes the subtree marker true. -/
theorem subtreeMarker_of_markerElem (x : Elem)
    (h : (descList x).any isMarkerElem = true) : subtreeMarker x = true := by
  rw [List.any_eq_true] at h
  obtain ⟨d, hmem, hp⟩ := h
  rw [subtreeMarker, List.any_eq_true]
  exact ⟨d, hmem, by simp [hp]⟩

/-- On a list of live tags, the text scan is exception-free and reports
whether some tag's lowered text contains `"not hired"`. -/
theorem scanTags_of_live (l : List Elem) (h : ∀ t ∈ l, t.stale = false) :
    scanTags l =
      some (l.any fun t => strContains (lowerStr t.text) "not hired") := by
  induction l with
  | nil => rfl
  | cons t rest ih =>
    simp only [scanTags, getText, h t (by simp), Bool.false_eq_true,
      if_false, List.any_cons]
    rcases hm : strContains (lowerStr t.text) "not hired"
    · simp only [Bool.false_or]
      exact ih fun x hx => h x (by simp [hx])
    · simp

/-- On a live node with live descendants, one level of the loop is
exception-free and reports exactly the subtree marker. -/
theorem levelCheck_of_live (x : Elem) (hx : x.stale = false)
    (hd : ∀ d ∈ descList x, d.stale = false) :
    levelCheck x = some (subtreeMarker x) := by
  simp only [levelCheck, findDescs, hx, Bool.false_eq_true, if_false]
  rcases hne : ((descList x).filter isMarkerElem).isEmpty
  · have hany : (descList x).any isMarkerElem = true := by
      rw [← filterNonempty_any, hne]; rfl
    rw [if_pos (by simp [hne])]
    simp [subtreeMarker_of_markerElem x hany]
  · have hnone : (descList x).any isMarkerElem = false := by
      rw [← filterNonempty_any, hne]; rfl
    rw [if_neg (by simp [hne])]
    rw [scanTags_of_live _ fun t ht => hd t (List.mem_of_mem_filter ht)]
    simp only [Option.some.injEq]
    rw [List.any_filter, subtreeMarker]
    refine listAny_congr _ _ _ fun d hdm => ?_
    have hz : isMarkerElem d = false := by
      rcases his : isMarkerElem d
      · rfl
      · have hx2 : (descList x).any isMarkerElem = true :=
          List.any_eq_true.mpr ⟨d, hdm, his⟩
        rw [hx2] at hnone
        simp at hnone
    simp [hz]

/-- On a fully live chain, the three-level loop reports a marker in the
subtree of the element, its parent, or its grandparent. -/
theorem levelLoop_of_live (e : Elem) (anc : List Elem)
    (hl : ∀ x ∈ e :: anc, x.stale = false ∧ ∀ d ∈ descList x, d.stale = false) :
    levelLoop e anc 3 =
      (subtreeMarker e ||
        match anc with
        | [] => false
        | p :: rest =>
          subtreeMarker p ||
            (match rest with
             | [] => false
             | g :: _ => subtreeMarker g)) := by
  have he := hl e (by simp)
  match anc with
  | [] =>
    simp only [levelLoop, levelCheck_of_live e he.1 he.2]
    rcases hse : subtreeMarker e <;> simp
  | [p] =>
    have hp := hl p (by simp)
    simp only [levelLoop, levelCheck_of_live e he.1 he.2,
      levelCheck_of_live p hp.1 hp.2]
    rcases hse : subtreeMarker e <;> rcases hsp : subtreeMarker p <;> simp
  | p :: g :: rest =>
    have hp := hl p (by simp)
    have hg := hl g (by simp)
    simp only [levelLoop, levelCheck_of_live e he.1 he.2,
      levelCheck_of_live p hp.1 hp.2, levelCheck_of_live g hg.1 hg.2]
    cases rest with
    | nil =>
      rcases hse : subtreeMarker e <;> rcases hsp : subtreeMarker p <;>
        rcases hsg : subtreeMarker g <;>
        simp [levelLoop, levelCheck_of_live g hg.1 hg.2, hsg]
    | cons a t =>
      rcases hse : subtreeMarker e <;> rcases hsp : subtreeMarker p <;>
        rcases hsg : subtreeMarker g <;>
        simp [levelLoop, levelCheck_of_live g hg.1 hg.2, hsg]

/-- On a fully live chain, the quick check reports: marker in the element's
own class attribute, or (when a parent exists) the marker substring in the
parent's class attribute or a marker-class descendant of the parent. -/
theorem quickCheck_of_live (e : Elem) (anc : List Elem)
    (hl : ∀ x ∈ e :: anc, x.stale = false ∧ ∀ d ∈ descList x, d.stale = false) :
    quickCheck e anc =
      (attrMarker e.classAttr ||
        match anc with
        | [] => false
        | p :: _ =>
          strContains p.classAttr "is-workflow-not-hired" ||
            (descList p).any isMarkerElem) := by
  have he := hl e (by simp)
  match anc with
  | [] =>
    simp only [quickCheck, getClassAttr, he.1, Bool.false_eq_true, if_false]
    rcases ha : attrMarker e.classAttr <;> simp
  | p :: rest =>
    have hp := hl p (by simp)
    simp only [quickCheck, getClassAttr, findDescs, he.1, hp.1,
      Bool.false_eq_true, if_false]
    rcases ha : attrMarker e.classAttr
    · rcases hpa : strContains p.classAttr "is-workflow-not-hired"
      · simp only [Bool.false_eq_true, if_false, Bool.false_or]
        rw [← filterNonempty_any]
        rcases hie : ((descList p).filter isMarkerElem).isEmpty <;> simp [hie]
      · simp
    · simp

/-- Claim C5, counterexample to the claim as stated: an element whose
*grandparent* carries the not-hired marker class on its own `class`
attribute (ancestor-chain level 2) is **not** excluded — every check reads
the class attributes of the element and its parent only, or searches
strict-descendant subtrees, and the grandparent element itself lies in
neither region. -/
theorem claim5_counterexample :
    hasClassTok (Elem.mk "is-workflow-not-hired" "" false
      [Elem.mk "row" "" false [Elem.mk "" "" false []]]).classAttr
      "is-workflow-not-hired" = true ∧
    is_candidate_not_hired (Elem.mk "" "" false [])
      [Elem.mk "row" "" false [Elem.mk "" "" false []],
       Elem.mk "is-workflow-not-hired" "" false
         [Elem.mk "row" "" false [Elem.mk "" "" false []]]] = false := by
  exact ⟨by decide, by decide⟩

/-- Claim C5 (amended): on a chain of responsive elements, the candidate is
classified excluded exactly when the marker is detectable: in the
element's own class attribute, in the parent's class attribute, or among
the strict descendants of the element, its parent, or its grandparent
(marker class, or a workflow tag whose text says "not hired"); the first
check that matches decides.  A marker carried only on the grandparent's or
a higher ancestor's own class attribute is not detected.  If the element
itself is stale (inspecting it raises), the classification defaults to not
excluded. -/
theorem claim5_not_hired_detection (e : Elem) (anc : List Elem) :
    ((∀ x ∈ e :: anc, x.stale = false ∧ ∀ d ∈ descList x, d.stale = false) →
      is_candidate_not_hired e anc = markerDetected e anc) ∧
    (e.stale = true → is_candidate_not_hired e anc = false) := by
  constructor
  · intro hl
    have hq : is_candidate_not_hired e anc =
        (quickCheck e anc || levelLoop e anc 3) := by
      rw [is_candidate_not_hired]
      rcases h : quickCheck e anc <;> simp
    rw [hq, quickCheck_of_live e anc hl, levelLoop_of_live e anc hl]
    match anc with
    | [] =>
      rw [markerDetected, Bool.eq_iff_iff]
      simp only [Bool.or_eq_true]
      tauto
    | [p] =>
      have himp := subtreeMarker_of_markerElem p
      rw [markerDetected, Bool.eq_iff_iff]
      simp only [Bool.or_eq_true]
      constructor
      · rintro ((h | h) | h) <;> tauto
      · rintro (h | h) <;> tauto
    | p :: g :: rest =>
      have himp := subtreeMarker_of_markerElem p
      rw [markerDetected, Bool.eq_iff_iff]
      simp only [Bool.or_eq_true]
      constructor
      · rintro ((h | h) | h) <;> tauto
      · rintro (h | h) <;> tauto
  · intro hs
    have h1 : quickCheck e anc = false := by
      simp [quickCheck, getClassAttr, hs]
    have hc : levelCheck e = none := by
      simp [levelCheck, findDescs, hs]
    have h2 : levelLoop e anc 3 = false := by
      cases anc with
      | nil => simp [levelLoop, hc]
      | cons p rest => simp [levelLoop, hc]
    simp [is_candidate_not_hired, h1, h2]

/-- Witness for `claim5_not_hired_detection`: a live chain whose parent
subtree holds a not-hired workflow tag is excluded, matching
`markerDetected`; the liveness hypothesis is discharged by computation. -/
theorem claim5_witness :
    (∀ x ∈ (Elem.mk "cand" "" false []) ::
        [Elem.mk "row" "" false
          [Elem.mk "cand" "" false [],
           Elem.mk "jz-tag is-workflow-not-hired" "Not Hired" false []]],
      x.stale = false ∧ ∀ d ∈ descList x, d.stale = false) ∧
    is_candidate_not_hired (Elem.mk "cand" "" false [])
      [Elem.mk "row" "" false
        [Elem.mk "cand" "" false [],
         Elem.mk "jz-tag is-workflow-not-hired" "Not Hired" false []]] =
      markerDetected (Elem.mk "cand" "" false [])
        [Elem.mk "row" "" false
          [Elem.mk "cand" "" false [],
           Elem.mk "jz-tag is-workflow-not-hired" "Not Hired" false []]] := by
  refine ⟨by decide, ?_⟩
  exact (claim5_not_hired_detection _ _).1 (by decide)

/-! ## Fail-fast on missing credentials (claim C8) -/

/-- Claim C8: in headless mode with no cookies supplied, a login-requiring
page makes the run fail immediately with the credentials-required error —
independent of every later oracle, so no interactive wait happens — with
zero candidates processed and the browser released by the `finally`. -/
theorem claim8_credentials_required_fail_fast (jobId : String) (env : NavEnv)
    (elems1 elems2 : List CandElem) (success cancelled : Nat → Bool)
    (hh : env.headless = true) (hc : env.hasCookies = false)
    (hlogin : check_login_required jobId env.page0 = true) :
    (download_all_resumes jobId env elems1 elems2 success cancelled).navError =
        some NavError.credentialsRequired ∧
      (download_all_resumes jobId env elems1 elems2 success cancelled).processed = 0 ∧
      (download_all_resumes jobId env elems1 elems2 success cancelled).st = initDState ∧
      (download_all_resumes jobId env elems1 elems2 success
        cancelled).sessionReleased = true := by
  have hnav : navigate_to_candidate_list jobId env =
      Except.error NavError.credentialsRequired := by
    simp [navigate_to_candidate_list, hlogin, hh, hc]
  simp [download_all_resumes, hnav]

/-- Witness for `claim8_credentials_required_fail_fast`: a headless,
cookie-less run landing on the login page. -/
theorem claim8_witness :
    (NavEnv.mk true false ⟨"https://app.jazz.co/login", [], false⟩
        ⟨"", [], false⟩ ⟨"", [], false⟩ (fun _ => ⟨"", [], false⟩)
        (fun _ => false)).headless = true ∧
    (NavEnv.mk true false ⟨"https://app.jazz.co/login", [], false⟩
        ⟨"", [], false⟩ ⟨"", [], false⟩ (fun _ => ⟨"", [], false⟩)
        (fun _ => false)).hasCookies = false ∧
    check_login_required "10545457"
      (NavEnv.mk true false ⟨"https://app.jazz.co/login", [], false⟩
        ⟨"", [], false⟩ ⟨"", [], false⟩ (fun _ => ⟨"", [], false⟩)
        (fun _ => false)).page0 = true ∧
    (download_all_resumes "10545457"
      (NavEnv.mk true false ⟨"https://app.jazz.co/login", [], false⟩
        ⟨"", [], false⟩ ⟨"", [], false⟩ (fun _ => ⟨"", [], false⟩)
        (fun _ => false)) [] [] (fun _ => true) (fun _ => false)).navError =
      some NavError.credentialsRequired := by
  refine ⟨rfl, rfl, by decide, ?_⟩
  exact (claim8_credentials_required_fail_fast "10545457" _ [] []
    (fun _ => true) (fun _ => false) rfl rfl (by decide)).1

/-! ## Empty-enumeration retry (claim C9) -/

/-- An enumeration that returns no links also recorded no candidate ids
(both are projections of the same dictionary). -/
theorem allIds_nil_of_links_nil (jobId : String) (es : List CandElem)
    (h : (get_candidate_links jobId es).links = []) :
    (get_candidate_links jobId es).allIds = [] := by
  simp only [get_candidate_links] at h ⊢
  rw [List.map_eq_nil_iff] at h
  rw [h]
  rfl

/-- Claim C9, counterexample to the claim as stated: a run whose two
enumeration attempts both yield zero candidates does **not** abort with an
`EnumerationEmpty` failure surfaced to the caller — `download_all_resumes`
logs and returns normally (lines 906–912), so the wrapper records a
`completed` status with zero stats and no error. -/
theorem claim9_counterexample :
    (run_download "7"
      (NavEnv.mk true true
        ⟨"https://app.jazz.co/app/v2/job/7/candidate?workflowStep=1", [], false⟩
        ⟨"", [], false⟩ ⟨"", [], false⟩ (fun _ => ⟨"", [], false⟩)
        (fun _ => false))
      [] [] (fun _ => false) (fun _ => false)).status = RunStatus.completed ∧
    (run_download "7"
      (NavEnv.mk true true
        ⟨"https://app.jazz.co/app/v2/job/7/candidate?workflowStep=1", [], false⟩
        ⟨"", [], false⟩ ⟨"", [], false⟩ (fun _ => ⟨"", [], false⟩)
        (fun _ => false))
      [] [] (fun _ => false) (fun _ => false)).errorText = none ∧
    (run_download "7"
      (NavEnv.mk true true
        ⟨"https://app.jazz.co/app/v2/job/7/candidate?workflowStep=1", [], false⟩
        ⟨"", [], false⟩ ⟨"", [], false⟩ (fun _ => ⟨"", [], false⟩)
        (fun _ => false))
      [] [] (fun _ => false) (fun _ => false)).run.enumAttempts = 2 ∧
    (run_download "7"
      (NavEnv.mk true true
        ⟨"https://app.jazz.co/app/v2/job/7/candidate?workflowStep=1", [], false⟩
        ⟨"", [], false⟩ ⟨"", [], false⟩ (fun _ => ⟨"", [], false⟩)
        (fun _ => false))
      [] [] (fun _ => false) (fun _ => false)).stats = some ⟨0, 0, 0, 0⟩ := by
  refine ⟨by decide, by decide, by decide, by decide⟩

/-- Claim C9 (amended): if the first enumeration yields zero candidates,
enumeration is retried exactly once (after a 10s pause); if the retry also
yields zero, the run stops with zero candidates processed and the session
released — but no error is raised: the caller observes a `completed`
status with all-zero stats rather than an `EnumerationEmpty` failure. -/
theorem claim9_enumeration_retry (jobId : String) (env : NavEnv)
    (elems1 elems2 : List CandElem) (success cancelled : Nat → Bool)
    (hnav : navigate_to_candidate_list jobId env = Except.ok ())
    (h1 : (get_candidate_links jobId elems1).links = [])
    (h2 : (get_candidate_links jobId elems2).links = [])
    (hflag : cancelled 1 = false) :
    (run_download jobId env elems1 elems2 success cancelled).run.enumAttempts = 2 ∧
    (run_download jobId env elems1 elems2 success cancelled).run.processed = 0 ∧
    (run_download jobId env elems1 elems2 success
      cancelled).run.sessionReleased = true ∧
    (run_download jobId env elems1 elems2 success cancelled).status =
      RunStatus.completed ∧
    (run_download jobId env elems1 elems2 success cancelled).errorText = none ∧
    (run_download jobId env elems1 elems2 success cancelled).stats =
      some ⟨0, 0, 0, 0⟩ := by
  have h2' : (get_candidate_links jobId elems2).allIds = [] :=
    allIds_nil_of_links_nil jobId elems2 h2
  have horch : download_all_resumes jobId env elems1 elems2 success cancelled =
      ⟨none, (get_candidate_links jobId elems2).allIds.toFinset, initDState, 0,
        2, cancelled 1, true⟩ := by
    simp [download_all_resumes, hnav, h1, h2]
  simp [run_download, horch, hflag, h2', initDState]

/-- Witness for `claim9_enumeration_retry`: a logged-in run of a job page
with no candidate elements at all. -/
theorem claim9_witness :
    navigate_to_candidate_list "7"
      (NavEnv.mk true true
        ⟨"https://app.jazz.co/app/v2/job/7/candidate?workflowStep=1", [], false⟩
        ⟨"", [], false⟩ ⟨"", [], false⟩ (fun _ => ⟨"", [], false⟩)
        (fun _ => false)) = Except.ok () ∧
    (get_candidate_links "7" ([] : List CandElem)).links = [] ∧
    (run_download "7"
      (NavEnv.mk true true
        ⟨"https://app.jazz.co/app/v2/job/7/candidate?workflowStep=1", [], false⟩
        ⟨"", [], false⟩ ⟨"", [], false⟩ (fun _ => ⟨"", [], false⟩)
        (fun _ => false))
      [] [] (fun _ => true) (fun _ => false)).run.enumAttempts = 2 := by
  refine ⟨rfl, rfl, ?_⟩
  exact (claim9_enumeration_retry "7"
    (NavEnv.mk true true
      ⟨"https://app.jazz.co/app/v2/job/7/candidate?workflowStep=1", [], false⟩
      ⟨"", [], false⟩ ⟨"", [], false⟩ (fun _ => ⟨"", [], false⟩)
      (fun _ => false)) [] [] (fun _ => true) (fun _ => false)
    rfl rfl rfl rfl).1

/-! ## Cooperative cancellation (claim C3) -/

/-- Under the schedule "flag becomes true after candidate `k` completes",
the loop's final counters are exactly the fold of the first
`k + 1 - i` remaining candidates. -/
theorem candidateLoop_fst (success : Nat → Bool) (k : Nat) :
    ∀ (l : List String) (i : Nat) (st : DState), i ≤ k + 1 →
      (candidateLoop success (fun j => decide (k < j)) l i st).1 =
        foldSteps success (l.take (k + 1 - i)) i st := by
  intro l
  induction l with
  | nil =>
    intro i st hi
    simp [candidateLoop, foldSteps]
  | cons url rest ih =>
    intro i st hi
    rcases Nat.lt_or_ge k i with hki | hki
    · have hik : i = k + 1 := by omega
      subst hik
      have hz : k + 1 - (k + 1) = 0 := by omega
      simp [candidateLoop, foldSteps, hz]
    · have hc : decide (k < i) = false := by simp; omega
      simp only [candidateLoop, hc, Bool.false_eq_true, if_false]
      rw [ih (i + 1) (fetchStep st url (success i)) (by omega)]
      have htake : (url :: rest).take (k + 1 - i) =
          url :: rest.take (k - i) := by
        have he : k + 1 - i = (k - i) + 1 := by omega
        rw [he, List.take_succ_cons]
      rw [htake]
      have he2 : k + 1 - (i + 1) = k - i := by omega
      rw [he2]
      rfl

/-- Under the same schedule, the loop processes exactly
`min (i - 1 + remaining) k` candidates. -/
theorem candidateLoop_snd (success : Nat → Bool) (k : Nat) :
    ∀ (l : List String) (i : Nat) (st : DState), 1 ≤ i → i ≤ k + 1 →
      (candidateLoop success (fun j => decide (k < j)) l i st).2 =
        min (i - 1 + l.length) k := by
  intro l
  induction l with
  | nil =>
    intro i st h1i hi
    show i - 1 = min (i - 1 + ([] : List String).length) k
    simp only [List.length_nil]
    omega
  | cons url rest ih =>
    intro i st h1i hi
    rcases Nat.lt_or_ge k i with hki | hki
    · have hik : i = k + 1 := by omega
      subst hik
      simp only [candidateLoop]
      rw [if_pos (by simp : decide (k < k + 1) = true)]
      show k + 1 - 1 = min (k + 1 - 1 + (url :: rest).length) k
      simp only [List.length_cons]
      omega
    · have hc : decide (k < i) = false := by simp; omega
      simp only [candidateLoop, hc, Bool.false_eq_true, if_false]
      rw [ih (i + 1) (fetchStep st url (success i)) (by omega) (by omega)]
      simp only [List.length_cons]
      omega

/-- Claim C3: with the cancellation flag becoming true after candidate `k`
of `n` completes (the flag is checked at the top of each per-candidate
iteration), exactly the first `k` candidates are processed, the final
counters are those accumulated over those `k` fetch steps — the downloads
completed so far are preserved —, the wrapper reports `cancelled`, and the
session is released. -/
theorem claim3_cancellation_cooperative (jobId : String) (env : NavEnv)
    (elems1 elems2 : List CandElem) (success : Nat → Bool) (k : Nat)
    (hnav : navigate_to_candidate_list jobId env = Except.ok ())
    (h1 : (get_candidate_links jobId elems1).links ≠ [])
    (hk : k < (get_candidate_links jobId elems1).links.length) :
    (download_all_resumes jobId env elems1 elems2 success
        (fun j => decide (k < j))).processed = k ∧
    (download_all_resumes jobId env elems1 elems2 success
        (fun j => decide (k < j))).st =
      foldSteps success ((get_candidate_links jobId elems1).links.take k) 1
        initDState ∧
    (run_download jobId env elems1 elems2 success
        (fun j => decide (k < j))).status = RunStatus.cancelledRun ∧
    (download_all_resumes jobId env elems1 elems2 success
        (fun j => decide (k < j))).sessionReleased = true := by
  have hie : (get_candidate_links jobId elems1).links.isEmpty = false := by
    rw [Bool.eq_false_iff, Ne, List.isEmpty_iff]
    exact h1
  have hfst := candidateLoop_fst success k
    (get_candidate_links jobId elems1).links 1 initDState (by omega)
  have hsnd := candidateLoop_snd success k
    (get_candidate_links jobId elems1).links 1 initDState (by omega) (by omega)
  have htk : k + 1 - 1 = k := by omega
  rw [htk] at hfst
  have hmin : min (1 - 1 + (get_candidate_links jobId elems1).links.length) k
      = k := by omega
  rw [hmin] at hsnd
  have horch : download_all_resumes jobId env elems1 elems2 success
      (fun j => decide (k < j)) =
      ⟨none, (get_candidate_links jobId elems1).allIds.toFinset,
        foldSteps success ((get_candidate_links jobId elems1).links.take k) 1
          initDState,
        k, 1, decide (k < k + 1), true⟩ := by
    simp only [download_all_resumes, hnav, hie, Bool.false_eq_true, if_false]
    rw [hfst, hsnd]
  have hflag : decide (k < k + 1) = true := by simp
  refine ⟨?_, ?_, ?_, ?_⟩
  · rw [horch]
  · rw [horch]
  · simp [run_download, horch, hflag]
  · rw [horch]

/-- Witness for `claim3_cancellation_cooperative`: the flag set after
candidate 1 of 5 completes; 1 candidate processed, run reports cancelled. -/
theorem claim3_witness :
    navigate_to_candidate_list "7"
      (NavEnv.mk true true
        ⟨"https://app.jazz.co/app/v2/job/7/candidate?workflowStep=1", [], false⟩
        ⟨"", [], false⟩ ⟨"", [], false⟩ (fun _ => ⟨"", [], false⟩)
        (fun _ => false)) = Except.ok () ∧
    (get_candidate_links "7"
      [⟨some "https://a/candidate/11", false⟩,
       ⟨some "https://a/candidate/12", false⟩,
       ⟨some "https://a/candidate/13", false⟩,
       ⟨some "https://a/candidate/14", false⟩,
       ⟨some "https://a/candidate/15", false⟩]).links ≠ [] ∧
    1 < (get_candidate_links "7"
      [⟨some "https://a/candidate/11", false⟩,
       ⟨some "https://a/candidate/12", false⟩,
       ⟨some "https://a/candidate/13", false⟩,
       ⟨some "https://a/candidate/14", false⟩,
       ⟨some "https://a/candidate/15", false⟩]).links.length ∧
    (download_all_resumes "7"
      (NavEnv.mk true true
        ⟨"https://app.jazz.co/app/v2/job/7/candidate?workflowStep=1", [], false⟩
        ⟨"", [], false⟩ ⟨"", [], false⟩ (fun _ => ⟨"", [], false⟩)
        (fun _ => false))
      [⟨some "https://a/candidate/11", false⟩,
       ⟨some "https://a/candidate/12", false⟩,
       ⟨some "https://a/candidate/13", false⟩,
       ⟨some "https://a/candidate/14", false⟩,
       ⟨some "https://a/candidate/15", false⟩] [] (fun _ => true)
      (fun j => decide (1 < j))).processed = 1 ∧
    (run_download "7"
      (NavEnv.mk true true
        ⟨"https://app.jazz.co/app/v2/job/7/candidate?workflowStep=1", [], false⟩
        ⟨"", [], false⟩ ⟨"", [], false⟩ (fun _ => ⟨"", [], false⟩)
        (fun _ => false))
      [⟨some "https://a/candidate/11", false⟩,
       ⟨some "https://a/candidate/12", false⟩,
       ⟨some "https://a/candidate/13", false⟩,
       ⟨some "https://a/candidate/14", false⟩,
       ⟨some "https://a/candidate/15", false⟩] [] (fun _ => true)
      (fun j => decide (1 < j))).status = RunStatus.cancelledRun := by
  have h := claim3_cancellation_cooperative "7"
    (NavEnv.mk true true
      ⟨"https://app.jazz.co/app/v2/job/7/candidate?workflowStep=1", [], false⟩
      ⟨"", [], false⟩ ⟨"", [], false⟩ (fun _ => ⟨"", [], false⟩)
      (fun _ => false))
    [⟨some "https://a/candidate/11", false⟩,
     ⟨some "https://a/candidate/12", false⟩,
     ⟨some "https://a/candidate/13", false⟩,
     ⟨some "https://a/candidate/14", false⟩,
     ⟨some "https://a/candidate/15", false⟩] [] (fun _ => true) 1
    rfl (by decide) (by decide)
  exact ⟨rfl, by decide, by decide, h.1, h.2.2.1⟩

/-! ## Deduplication and normalization (claim C7) -/

/-- Processing distributes over list append. -/
theorem processElems_append (d : CandDict) (a b : List CandElem) :
    processElems d (a ++ b) = processElems (processElems d a) b :=
  List.foldl_append procElem d a b

/-- Processing one element then the rest. -/
theorem processElems_cons (d : CandDict) (x : CandElem) (l : List CandElem) :
    processElems d (x :: l) = processElems (procElem d x) l := rfl

/-- Everything `procElem` can do: leave the dictionary unchanged, or append
one new entry whose id the regex extracted from its href, is not yet a key,
and whose element is not filtered as not-hired. -/
theorem procElem_cases (d : CandDict) (x : CandElem) :
    procElem d x = d ∨
      ∃ cid href, x.href = some href ∧ extractCandidateId href = some cid ∧
        (d.map Prod.fst).contains cid = false ∧ x.notHired = false ∧
        procElem d x = d ++ [(cid, href)] := by
  rcases hx : x.href with _ | href
  · left; simp [procElem, hx]
  · simp only [procElem, hx]
    split
    · exact Or.inl rfl
    · rcases hid : extractCandidateId href with _ | cid
      · left; simp [hid]
      · simp only [hid]
        split
        next hdup =>
          exact Or.inl rfl
        next hdup =>
          split
          next hnh => exact Or.inl rfl
          next hnh =>
            right
            exact ⟨cid, href, rfl, hid, by simpa using hdup,
              by simpa using hnh, rfl⟩

/-- `procElem` only grows the key set. -/
theorem procElem_keys_mono (d : CandDict) (x : CandElem) :
    d.map Prod.fst ⊆ (procElem d x).map Prod.fst := by
  rcases procElem_cases d x with h | ⟨cid, href, _, _, _, _, h⟩
  · rw [h]
    exact fun a ha => ha
  · rw [h, List.map_append]
    exact List.subset_append_left _ _

/-- The whole processing loop only grows the key set. -/
theorem processElems_keys_mono (es : List CandElem) :
    ∀ d : CandDict, d.map Prod.fst ⊆ (processElems d es).map Prod.fst := by
  induction es with
  | nil => intro d; exact fun a ha => ha
  | cons e rest ih =>
    intro d
    exact (procElem_keys_mono d e).trans (ih (procElem d e))

/-- An element the loop skipped stays skipped against any dictionary with
at least the same keys: its intrinsic filters have not changed, and a
duplicate id stays a duplicate. -/
theorem procElem_inert (d d' : CandDict) (x : CandElem)
    (h : procElem d x = d) (hsub : d.map Prod.fst ⊆ d'.map Prod.fst) :
    procElem d' x = d' := by
  rcases hx : x.href with _ | href
  · simp [procElem, hx]
  · simp only [procElem, hx] at h ⊢
    split
    · rfl
    next hcand =>
      rw [if_neg hcand] at h
      rcases hid : extractCandidateId href with _ | cid
      · simp [hid]
      · simp only [hid] at h ⊢
        by_cases hdup : (d.map Prod.fst).contains cid = true
        · have hdup' : (d'.map Prod.fst).contains cid = true :=
            List.elem_iff.mpr (hsub (List.elem_iff.mp hdup))
          rw [if_pos hdup']
        · rw [if_neg hdup] at h
          by_cases hnh : x.notHired = true
          · split
            · rfl
            · simp [hnh]
          · rw [if_neg hnh] at h
            exact absurd (congrArg List.length h) (by simp)

/-- Processing the same element twice in a row is processing it once. -/
theorem procElem_idem (d : CandDict) (x : CandElem) :
    procElem (procElem d x) x = procElem d x := by
  rcases procElem_cases d x with h | ⟨cid, href, hx, hid, hdup, hnh, h⟩
  · rw [h, h]
  · rw [h]
    simp only [procElem, hx, hid]
    split
    · rfl
    · rw [if_pos]
      rw [List.elem_iff]
      simp

/-- Claim C7, counterexample to the claim as stated: a surviving candidate
whose raw link is not an absolute `http(s)` URL is kept verbatim
(lines 526–530), not mapped to the canonical profile URL. -/
theorem claim7_counterexample :
    (get_candidate_links "7" [⟨some "/candidate/5", false⟩]).links =
      ["/candidate/5"] ∧
    "/candidate/5" ≠ profileUrl "7" "5" := by
  exact ⟨by decide, by decide⟩

/-- Claim C7 (amended): feeding the same raw element to the enumerator
twice yields exactly one record — processing is idempotent across
duplicates, and the recorded ids are pairwise distinct; every surviving
candidate whose href is an absolute `http` URL is mapped to the canonical
`{base}/job/{jobId}/candidate/{candidateId}/profile` URL, while a non-http
href is kept verbatim. -/
theorem claim7_dedup_normalization (jobId : String) (e : CandElem)
    (l1 l2 l3 es : List CandElem) :
    get_candidate_links jobId (l1 ++ (e :: (l2 ++ (e :: l3)))) =
      get_candidate_links jobId (l1 ++ (e :: (l2 ++ l3))) ∧
    (get_candidate_links jobId es).allIds.Nodup ∧
    (get_candidate_links jobId es).links =
      (processElems [] es).map fun p =>
        if strStarts p.2 "http" then profileUrl jobId p.1 else p.2 := by
  refine ⟨?_, ?_, ?_⟩
  · have key : processElems [] (l1 ++ (e :: (l2 ++ (e :: l3)))) =
        processElems [] (l1 ++ (e :: (l2 ++ l3))) := by
      simp only [processElems_append, processElems_cons]
      rw [procElem_inert (procElem (processElems [] l1) e)
        (processElems (procElem (processElems [] l1) e) l2) e
        (procElem_idem (processElems [] l1) e)
        (processElems_keys_mono l2 (procElem (processElems [] l1) e))]
    simp only [get_candidate_links, key]
  · have hgen : ∀ d : CandDict, (d.map Prod.fst).Nodup →
        ((processElems d es).map Prod.fst).Nodup := by
      induction es with
      | nil => intro d hd; exact hd
      | cons x rest ih =>
        intro d hd
        refine ih (procElem d x) ?_
        rcases procElem_cases d x with h | ⟨cid, href, _, _, hdup, _, h⟩
        · rw [h]; exact hd
        · rw [h, List.map_append]
          rw [List.nodup_append]
          refine ⟨hd, List.nodup_singleton _, ?_⟩
          intro a ha hb
          simp only [List.map_cons, List.map_nil, List.mem_singleton] at hb
          subst hb
          have hmem : (d.map Prod.fst).contains a = true := List.elem_iff.mpr ha
          rw [hmem] at hdup
          exact absurd hdup (by simp)
    exact hgen [] (by simp)
  · have hinv : ∀ p ∈ processElems [] es,
        extractCandidateId p.2 = some p.1 := by
      have hgen : ∀ d : CandDict,
          (∀ p ∈ d, extractCandidateId p.2 = some p.1) →
          ∀ p ∈ processElems d es, extractCandidateId p.2 = some p.1 := by
        induction es with
        | nil => intro d hd; exact hd
        | cons x rest ih =>
          intro d hd
          refine ih (procElem d x) ?_
          rcases procElem_cases d x with h | ⟨cid, href, _, hid, _, _, h⟩
          · rw [h]; exact hd
          · rw [h]
            intro p hp
            rcases List.mem_append.mp hp with hp | hp
            · exact hd p hp
            · simp only [List.mem_singleton] at hp
              subst hp
              exact hid
      exact hgen [] (by simp)
    simp only [get_candidate_links]
    refine List.map_congr_left fun p hp => ?_
    rw [normalizeLink]
    split
    · rw [hinv p hp]
    · rfl

/-! ## The downloaded-set invariant (claim C1)

The heart of the claim is that the id recorded on a successful fetch
(line 845, parsed from the candidate URL) is always one of the ids recorded
during enumeration (line 532).  For links kept verbatim that is the
enumeration invariant; for canonicalized links it needs that the id regex,
run on `profileUrl jobId cid`, recovers exactly `cid` — true because the
fixed URL text contains no `/candidate/` before the real one and a numeric
job id consists of digits, which the literal `/candidate/` has none of.
-/

/-- String append distributes over `toList`. -/
theorem strToList_append (a b : String) :
    (a ++ b).toList = a.toList ++ b.toList := by
  simp [String.toList, String.data_append]

/-- One unfolding step of the regex scan. -/
theorem findCandidateId_cons (c : Char) (rest : List Char) :
    findCandidateId (c :: rest) =
      if candLit.isPrefixOf (c :: rest) ∧
          (((c :: rest).drop candLit.length).takeWhile Char.isDigit) ≠ [] then
        some (((c :: rest).drop candLit.length).takeWhile Char.isDigit)
      else findCandidateId rest := rfl

/-- `goodAt` unpacked. -/
theorem goodAt_iff (l : List Char) :
    goodAt l = true ↔
      (candLit.isPrefixOf l ∧
        ((l.drop candLit.length).takeWhile Char.isDigit) ≠ []) := by
  simp [goodAt]

/-- A captured group is a nonempty run of digits. -/
theorem findCandidateId_digits :
    ∀ l ds, findCandidateId l = some ds →
      ds ≠ [] ∧ ∀ c ∈ ds, c.isDigit = true := by
  intro l
  induction l with
  | nil => intro ds h; exact absurd h (by simp [findCandidateId])
  | cons c rest ih =>
    intro ds h
    rw [findCandidateId_cons] at h
    split at h
    next hcond =>
      rw [Option.some.injEq] at h
      subst h
      exact ⟨hcond.2, fun x hx => List.mem_takeWhile_imp hx⟩
    next => exact ih ds h

/-- Where the regex matches, the scan stops and captures the digit run
after the literal. -/
theorem findCandidateId_of_goodAt (l : List Char) (h : goodAt l = true) :
    findCandidateId l =
      some ((l.drop candLit.length).takeWhile Char.isDigit) := by
  rw [goodAt_iff] at h
  cases l with
  | nil => exact absurd h.1 (by decide)
  | cons c rest => rw [findCandidateId_cons, if_pos h]

/-- A scan region with no match anywhere is skipped entirely. -/
theorem findCandidateId_append (A B : List Char)
    (h : ∀ A2, A2 ≠ [] → A2 <:+ A → goodAt (A2 ++ B) = false) :
    findCandidateId (A ++ B) = findCandidateId B := by
  induction A with
  | nil => rfl
  | cons a A' ih =>
    have hg := h (a :: A') (by simp) (List.suffix_refl _)
    rw [List.cons_append] at hg
    have hcond : ¬ (candLit.isPrefixOf (a :: (A' ++ B)) ∧
        (((a :: (A' ++ B)).drop candLit.length).takeWhile Char.isDigit)
          ≠ []) := by
      intro hc
      rw [(goodAt_iff _).mpr hc] at hg
      exact absurd hg (by simp)
    rw [List.cons_append, findCandidateId_cons, if_neg hcond]
    exact ih fun A2 hne hsuf => h A2 hne (hsuf.trans (List.suffix_cons a A'))

/-- The literal never matches starting at a digit. -/
theorem goodAt_digit_head (d : Char) (l : List Char) (hd : d.isDigit = true) :
    goodAt (d :: l) = false := by
  rw [Bool.eq_false_iff, Ne, goodAt_iff]
  rintro ⟨hpre, _⟩
  rw [List.isPrefixOf_iff_prefix] at hpre
  have hcl : candLit = '/' :: "candidate/".toList := by decide
  rw [hcl, List.cons_prefix_cons] at hpre
  rw [← hpre.1] at hd
  exact absurd hd (by decide)

/-- Splitting a suffix of an append. -/
theorem suffix_append_cases {α : Type} (A2 X Y : List α) (h : A2 <:+ X ++ Y) :
    A2 <:+ Y ∨ ∃ Xs, Xs <:+ X ∧ A2 = Xs ++ Y := by
  induction X with
  | nil => exact Or.inl (by simpa using h)
  | cons x X' ih =>
    rw [List.cons_append, List.suffix_cons_iff] at h
    rcases h with h | h
    · right
      exact ⟨x :: X', List.suffix_refl _, by simpa using h⟩
    · rcases ih h with h1 | ⟨Xs, hXs, rfl⟩
      · exact Or.inl h1
      · right
        exact ⟨Xs, hXs.trans (List.suffix_cons x X'), rfl⟩

/-- No suffix of the fixed URL text followed by a digit job id can start a
`/candidate/` match before the real one. -/
theorem noMatch_in_head (jobIdL : List Char) (B : List Char)
    (hne : jobIdL ≠ []) (hdig : ∀ c ∈ jobIdL, c.isDigit = true) :
    ∀ A2, A2 ≠ [] → A2 <:+ (fixedPre ++ jobIdL) →
      goodAt (A2 ++ B) = false := by
  intro A2 hA2 hsuf
  rcases suffix_append_cases A2 fixedPre jobIdL hsuf with hj | ⟨Xs, hXs, rfl⟩
  · cases A2 with
    | nil => exact absurd rfl hA2
    | cons d tl =>
      rw [List.cons_append]
      exact goodAt_digit_head d _ (hdig d (hj.subset (by simp)))
  · rw [Bool.eq_false_iff, Ne, goodAt_iff]
    rintro ⟨hpre, _⟩
    rw [List.isPrefixOf_iff_prefix, List.append_assoc] at hpre
    rcases List.prefix_or_prefix_of_prefix hpre
        (List.prefix_append Xs (jobIdL ++ B)) with hcXs | hXsc
    · have hchk : fixedPre.tails.all
          (fun t => !(candLit.isPrefixOf t)) = true := by decide
      have hmem : Xs ∈ fixedPre.tails := (List.mem_tails _ _).mpr hXs
      have hxx := List.all_eq_true.mp hchk Xs hmem
      rw [← List.isPrefixOf_iff_prefix] at hcXs
      rw [hcXs] at hxx
      exact absurd hxx (by decide)
    · have hXeq : candLit = Xs ++ candLit.drop Xs.length := by
        rw [List.prefix_iff_eq_take] at hXsc
        conv_lhs => rw [← List.take_append_drop Xs.length candLit, ← hXsc]
      rw [hXeq, List.prefix_append_right_inj] at hpre
      cases hrest : candLit.drop Xs.length with
      | nil =>
        rw [hrest, List.append_nil] at hXeq
        have hchk : fixedPre.tails.all
            (fun t => !(candLit.isPrefixOf t)) = true := by decide
        have hmem : Xs ∈ fixedPre.tails := (List.mem_tails _ _).mpr hXs
        have hxx := List.all_eq_true.mp hchk Xs hmem
        rw [hXeq] at hxx
        have hself : Xs.isPrefixOf Xs = true := by
          rw [List.isPrefixOf_iff_prefix]
        rw [hself] at hxx
        exact absurd hxx (by decide)
      | cons c2 rt =>
        rw [hrest] at hpre
        cases jobIdL with
        | nil => exact absurd rfl hne
        | cons d jt =>
          rw [List.cons_append, List.cons_prefix_cons] at hpre
          have hc2 : c2 ∈ candLit := by
            rw [hXeq, hrest]
            exact List.mem_append_right _ (by simp)
          have hnd : ∀ c ∈ candLit, c.isDigit = false := by decide
          have hcd := hnd c2 hc2
          rw [hpre.1] at hcd
          rw [hdig d (by simp)] at hcd
          exact absurd hcd (by simp)

/-- A run of digits followed by `/profile` is captured whole. -/
theorem takeWhile_digits (cidL : List Char)
    (h : ∀ c ∈ cidL, c.isDigit = true) :
    (cidL ++ "/profile".toList).takeWhile Char.isDigit = cidL := by
  induction cidL with
  | nil => decide
  | cons c t ih =>
    rw [List.cons_append, List.takeWhile_cons_of_pos (h c (by simp))]
    rw [ih fun x hx => h x (by simp [hx])]

/-- Running the id regex on a canonical profile URL built from a numeric
job id recovers exactly the candidate id. -/
theorem extract_profileUrl (jobId cid : String)
    (hne : jobId.toList ≠ []) (hdig : ∀ c ∈ jobId.toList, c.isDigit = true)
    (hcne : cid.toList ≠ []) (hcdig : ∀ c ∈ cid.toList, c.isDigit = true) :
    extractCandidateId (profileUrl jobId cid) = some cid := by
  have hsplit : (profileUrl jobId cid).toList =
      (fixedPre ++ jobId.toList) ++
        (candLit ++ (cid.toList ++ "/profile".toList)) := by
    simp [profileUrl, strToList_append, fixedPre, candLit, List.append_assoc]
  have hB : goodAt (candLit ++ (cid.toList ++ "/profile".toList)) = true := by
    rw [goodAt_iff]
    constructor
    · rw [List.isPrefixOf_iff_prefix]
      exact List.prefix_append _ _
    · rw [List.drop_left]
      rw [takeWhile_digits cid.toList hcdig]
      exact hcne
  rw [extractCandidateId, hsplit,
    findCandidateId_append _ _ (noMatch_in_head jobId.toList _ hne hdig),
    findCandidateId_of_goodAt _ hB, List.drop_left,
    takeWhile_digits cid.toList hcdig]
  rfl

/-- The enumeration dictionary's entries satisfy: the id regex on the
stored href yields the stored id (lines 484–488 put them there that way). -/
theorem processElems_extract_inv (es : List CandElem) :
    ∀ d : CandDict, (∀ p ∈ d, extractCandidateId p.2 = some p.1) →
      ∀ p ∈ processElems d es, extractCandidateId p.2 = some p.1 := by
  induction es with
  | nil => intro d hd; exact hd
  | cons x rest ih =>
    intro d hd
    refine ih (procElem d x) ?_
    rcases procElem_cases d x with h | ⟨cid, href, _, hid, _, _, h⟩
    · rw [h]; exact hd
    · rw [h]
      intro p hp
      rcases List.mem_append.mp hp with hp | hp
      · exact hd p hp
      · simp only [List.mem_singleton] at hp
        subst hp
        exact hid

/-- Every link the enumeration returns carries an id that is in
`all_candidate_ids`: verbatim links by the dictionary invariant,
canonicalized links because the regex recovers the id from the profile
URL. -/
theorem link_id_mem (jobId : String) (es : List CandElem)
    (hne : jobId ≠ "") (hdig : ∀ c ∈ jobId.toList, c.isDigit = true) :
    ∀ url ∈ (get_candidate_links jobId es).links, ∃ cid,
      extractCandidateId url = some cid ∧
        cid ∈ (get_candidate_links jobId es).allIds := by
  intro url hurl
  simp only [get_candidate_links, List.mem_map] at hurl
  obtain ⟨p, hp, rfl⟩ := hurl
  have hinv := processElems_extract_inv es [] (by simp) p hp
  have hinv2 : (findCandidateId p.2.toList).map String.mk = some p.1 := hinv
  refine ⟨p.1, ?_, List.mem_map_of_mem Prod.fst hp⟩
  rw [normalizeLink]
  split
  · rw [hinv]
    refine extract_profileUrl jobId p.1 ?_ hdig ?_ ?_
    · intro hjl
      exact hne (by simpa using congrArg String.mk hjl)
    · obtain ⟨ds, hds, hmk⟩ := Option.map_eq_some'.mp hinv2
      rw [← hmk]
      intro hm
      exact (findCandidateId_digits p.2.toList ds hds).1 hm
    · obtain ⟨ds, hds, hmk⟩ := Option.map_eq_some'.mp hinv2
      rw [← hmk]
      intro c hc
      exact (findCandidateId_digits p.2.toList ds hds).2 c hc
  · exact hinv

/-- The fold of fetch steps keeps the downloaded-id set inside any id set
that covers all candidate URLs. -/
theorem foldSteps_subset (success : Nat → Bool) (A : Finset String) :
    ∀ (l : List String) (i : Nat) (st : DState),
      (∀ url ∈ l, ∀ cid, extractCandidateId url = some cid → cid ∈ A) →
      st.downloadedIds ⊆ A →
      (foldSteps success l i st).downloadedIds ⊆ A := by
  intro l
  induction l with
  | nil => intro i st hl hst; exact hst
  | cons url rest ih =>
    intro i st hl hst
    refine ih (i + 1) (fetchStep st url (success i))
      (fun u hu => hl u (by simp [hu])) ?_
    rw [fetchStep]
    split
    · rcases hx : extractCandidateId url with _ | cid
      · simpa [hx] using hst
      · simp only [hx]
        exact Finset.insert_subset (hl url (by simp) cid hx) hst
    · exact hst

/-- Claim C1: after every per-candidate fetch step (any prefix of the
enumerated links, any pattern of successes), the set of downloaded
candidate ids is a subset of the set of found candidate ids, and the count
of unique downloaded ids is at most the count of unique found ids. -/
theorem claim1_downloaded_subset_found (jobId : String)
    (elems : List CandElem) (success : Nat → Bool) (k : Nat)
    (hne : jobId ≠ "") (hdig : ∀ c ∈ jobId.toList, c.isDigit = true) :
    (foldSteps success ((get_candidate_links jobId elems).links.take k) 1
        initDState).downloadedIds ⊆
      (get_candidate_links jobId elems).allIds.toFinset ∧
    (foldSteps success ((get_candidate_links jobId elems).links.take k) 1
        initDState).downloadedIds.card ≤
      (get_candidate_links jobId elems).allIds.toFinset.card := by
  have hsub : (foldSteps success
      ((get_candidate_links jobId elems).links.take k) 1
        initDState).downloadedIds ⊆
      (get_candidate_links jobId elems).allIds.toFinset := by
    refine foldSteps_subset success _ _ 1 initDState ?_ (by simp [initDState])
    intro url hurl cid hcid
    obtain ⟨cid', hcid', hmem⟩ := link_id_mem jobId elems hne hdig url
      (List.take_subset k _ hurl)
    rw [hcid'] at hcid
    rw [Option.some.injEq] at hcid
    subst hcid
    exact List.mem_toFinset.mpr hmem
  exact ⟨hsub, Finset.card_le_card hsub⟩

/-- Witness for `claim1_downloaded_subset_found`: a numeric job id, two
discovered candidates, both fetches succeeding, checked after the first
step. -/
theorem claim1_witness :
    ("10545457" : String) ≠ "" ∧
    (∀ c ∈ ("10545457" : String).toList, c.isDigit = true) ∧
    (foldSteps (fun _ => true)
        ((get_candidate_links "10545457"
          [⟨some "https://a/candidate/21", false⟩,
           ⟨some "https://a/candidate/22", false⟩]).links.take 1) 1
        initDState).downloadedIds ⊆
      (get_candidate_links "10545457"
        [⟨some "https://a/candidate/21", false⟩,
         ⟨some "https://a/candidate/22", false⟩]).allIds.toFinset := by
  refine ⟨by decide, by decide, ?_⟩
  exact (claim1_downloaded_subset_found "10545457"
    [⟨some "https://a/candidate/21", false⟩,
     ⟨some "https://a/candidate/22", false⟩] (fun _ => true) 1
    (by decide) (by decide)).1
